import Mathlib

/-!
# PyBS — shallow embedding and verification of the spec's claims

This file embeds the scheduler/executor core of the PyBS batch system
(`PyBS/pybsdaemon.py`, `PyBS/db/job.py`, `PyBS/rpcserver.py`) as executable
Lean definitions and proves or refutes the frozen claims about it.

Modelling conventions:
* Python strings are `List Char` (named `Str` here); wall-clock timestamps are
  `Nat` ticks; Python `int` is `Int`.
* A raised Python exception is an explicit `PyErr` value: `ValueError`
  (the only kind the RPC layer catches) versus every other exception class
  (`AttributeError`, `IndexError`, `NameError`, `OSError`, ...).
* The job table is a `List Job`.  The list order models the order in which
  the database returns rows for rows that tie on every `ORDER BY` key, which
  SQL leaves unspecified.
* SQL `LIKE` is modelled by `likeMatch` with `%` matching any sequence and
  `_` matching any single character, case-sensitively (dialect collation is
  out of the spec's scope).
* File-system contents are an association list from filename to the list of
  lines of the file.  The daemon's root directory is modelled as `/`, for
  which `os.path.relpath` at submit and `os.path.join` at run compose to the
  identity on paths, so filenames are carried through unchanged.
-/

/-- Python strings, modelled as their list of characters. -/
abbrev Str : Type := List Char

/-- A raised Python exception.  `RpcServer.handle_request` catches exactly
`ValueError`; every other exception class is an `otherError` and escapes the
RPC layer. -/
inductive PyErr : Type where
  | valueError (msg : Str)
  | otherError (msg : Str)
deriving DecidableEq, Repr

/-- A value in the parsed PBS-header dictionary: every directive stores a
string except `-p`, which stores `int(value)`. -/
inductive HVal : Type where
  | s (v : Str)
  | i (v : Int)
deriving DecidableEq, Repr

/-- The header dictionary.  New entries are consed at the front and lookup
takes the first hit, so a later directive overwrites an earlier one exactly
as assignment into a Python dict does. -/
abbrev Header : Type := List (Str × HVal)

/-- Dictionary lookup (`header[k]` / `k in header`). -/
def hfind (h : Header) (k : Str) : Option HVal :=
  (h.find? (fun p => p.1 == k)).map (fun p => p.2)

/-- One row of the `job` table (`PyBS/db/job.py`).  `ncpus` is an `INTEGER`
column that receives the raw header string at submit; a decimal string is
stored as its integer value, any other text is modelled as `none`, which no
numeric comparison in the dispatcher accepts. -/
structure Job : Type where
  id : Nat
  name : Str
  username : Str
  filename : Str
  ncpus : Option Int
  priority : Int
  nodes : Option Str
  node : Option Str
  submitted : Nat
  started : Option Nat
  finished : Option Nat
deriving DecidableEq, Repr

/-- Python `str.split(sep)` for a one-character separator: keeps empty
segments and yields `[""]` on the empty string. -/
def splitOnChar (sep : Char) : Str → List Str
  | [] => [[]]
  | c :: rest =>
    let r := splitOnChar sep rest
    if c == sep then [] :: r
    else
      match r with
      | g :: gs => (c :: g) :: gs
      | [] => [[c]]

/-- Decimal digits to a number, `none` on the empty list or a non-digit. -/
def digitsToNat : Str → Option Nat
  | [] => none
  | ds => ds.foldl (fun acc c =>
      match acc with
      | none => none
      | some n => if c.isDigit then some (n * 10 + (c.toNat - 48)) else none)
      (some 0)

/-- Python `int(s)`: optional surrounding spaces, an optional sign, then a
nonempty run of decimal digits; anything else raises `ValueError`. -/
def parseInt (s : Str) : Option Int :=
  let t := (s.dropWhile (fun c => c == ' ')).reverse.dropWhile (fun c => c == ' ') |>.reverse
  match t with
  | '-' :: ds => (digitsToNat ds).map (fun n => -(n : Int))
  | '+' :: ds => (digitsToNat ds).map (fun n => (n : Int))
  | ds => (digitsToNat ds).map (fun n => (n : Int))

/-- A word character for the regular expression's `\w` (ASCII). -/
def isWordChar (c : Char) : Bool :=
  c.isAlpha || c.isDigit || c == '_'

/-- `re.match` of the directive pattern against one line: matches
exactly the lines that start with `#PBS -`, one word character and a space,
and captures that character and the rest of the line. -/
def matchPBS : Str → Option (Char × Str)
  | '#' :: 'P' :: 'B' :: 'S' :: ' ' :: '-' :: c :: ' ' :: rest =>
    if isWordChar c then some (c, rest) else none
  | _ => none

/-- Exception value for Python `s[1]` on a one-element list. -/
def indexError : PyErr := .otherError "IndexError: list index out of range".data

/-- Exception value for Python `int()` on a malformed literal. -/
def intValueError : PyErr := .valueError "invalid literal for int() with base 10".data

/-- `Job.parse_pbs_header`, one line at a time.  The accumulated dictionary
grows at the front; lines that do not match the directive pattern, and
matching lines whose letter is none of `N l e o m M p`, are skipped.  A
`-l` line without `=` raises `IndexError`; a `-p` line whose value is not an
integer raises `ValueError`. -/
def parseHeaderAux (acc : Header) : List Str → Except PyErr Header
  | [] => .ok acc
  | line :: rest =>
    match matchPBS line with
    | none => parseHeaderAux acc rest
    | some (c, v) =>
      if c == 'N' then parseHeaderAux (("name".data, .s v) :: acc) rest
      else if c == 'l' then
        match splitOnChar '=' v with
        | k :: w :: _ => parseHeaderAux ((k, .s w) :: acc) rest
        | _ => .error indexError
      else if c == 'e' then parseHeaderAux (("error".data, .s v) :: acc) rest
      else if c == 'o' then parseHeaderAux (("output".data, .s v) :: acc) rest
      else if c == 'm' then parseHeaderAux (("send_mail".data, .s v) :: acc) rest
      else if c == 'M' then parseHeaderAux (("email".data, .s v) :: acc) rest
      else if c == 'p' then
        match parseInt v with
        | some n => parseHeaderAux (("priority".data, .i n) :: acc) rest
        | none => .error intValueError
      else parseHeaderAux acc rest

/-- `Job.parse_pbs_header` on the lines of a file. -/
def parseHeader (lines : List Str) : Except PyErr Header :=
  parseHeaderAux [] lines

example : matchPBS "#PBS -N hello".data = some ('N', "hello".data) := by decide

example : parseHeader ["#PBS -l ncpus=20".data] =
    .ok [("ncpus".data, .s "20".data)] := rfl

example : parseHeader ["#PBS -l a=b=c".data] =
    .ok [("a".data, .s "b".data)] := rfl

example : parseHeader ["#PBS -l junk".data] = .error indexError := rfl

example : parseHeader ["#PBS -p -3".data] =
    .ok [("priority".data, .i (-3))] := rfl

example : parseHeader ["nonsense".data, "#PBS -m ae".data, "".data] =
    .ok [("send_mail".data, .s "ae".data)] := rfl

/-- SQL `LIKE`: `%` matches any (possibly empty) sequence — realized by
trying every suffix of the subject — `_` matches any single character, and
every other pattern character matches itself. -/
def likeMatch : Str → Str → Bool
  | [], s => s.isEmpty
  | p :: ps, s =>
    if p == '%' then
      s.tails.any (fun t => likeMatch ps t)
    else
      match s with
      | [] => false
      | c :: t => (p == '_' || p == c) && likeMatch ps t

/-- The node-affinity disjunct of `PyBSdaemon._start_job`'s query: the
`nodes` column is NULL, or equals the hostname, or `LIKE` places the
hostname at the start, in the middle between commas, or at the end of the
comma-separated list. -/
def nodesMatch (host : Str) (nodes : Option Str) : Bool :=
  match nodes with
  | none => true
  | some ns =>
    ns == host ||
      likeMatch (host ++ ",%".data) ns ||
      likeMatch ("%,".data ++ host ++ ",%".data) ns ||
      likeMatch ("%,".data ++ host) ns

/-- The numeric CPU filter `Job.ncpus <= available_cpus`: a non-numeric
`ncpus` value (stored text) never satisfies a numeric comparison. -/
def ncpusLe (ncpus : Option Int) (availableCpus : Int) : Bool :=
  match ncpus with
  | some n => n ≤ availableCpus
  | none => false

/-- The `WHERE` clause of the dispatch query in `PyBSdaemon._start_job`:
not started, not finished, not more requested cores than available, and the
node-affinity disjunct. -/
def eligible (host : Str) (availableCpus : Int) (j : Job) : Bool :=
  j.started.isNone && j.finished.isNone && ncpusLe j.ncpus availableCpus &&
    nodesMatch host j.nodes

/-- `ORDER BY priority DESC, submitted ASC`: row `a` sorts strictly before
row `b`. -/
def better (a b : Job) : Bool :=
  decide (b.priority < a.priority) ||
    (a.priority == b.priority && decide (a.submitted < b.submitted))

/-- One comparison step of the linear scan that realizes
`ORDER BY ... .first()`: keep the incumbent unless the next row is strictly
better, so rows tying on both sort keys are taken in the order the database
returned them. -/
def pickStep (best x : Job) : Job :=
  if better x best then x else best

/-- `.first()` of the ordered query: the row no other row of the list is
strictly better than, the earliest such row in database order. -/
def pickFirst : List Job → Option Job
  | [] => none
  | j :: rest => some (rest.foldl pickStep j)

/-- Update the first list element satisfying `p` (the single ORM row object
returned by the query). -/
def updateFirst (p : Job → Bool) (f : Job → Job) : List Job → List Job
  | [] => []
  | j :: rest => if p j then f j :: rest else j :: updateFirst p f rest

/-- `session.query(Job).filter(Job.id == job_id).first()`. -/
def findFirst (store : List Job) (jobId : Nat) : Option Job :=
  store.find? (fun j => j.id == jobId)

/-- `PyBSdaemon._start_job`: filter the table, order it, lock and take the
first row; if one exists, stamp `started` with the current time, overwrite
`nodes` with this node's name, commit, and hand the row's id to a fresh
supervisor task.  Returns the claimed id (`none` when no row qualifies) and
the table after commit.  The `node` column is not touched. -/
def startJob (host : Str) (availableCpus : Int) (now : Nat) (store : List Job) :
    Option Nat × List Job :=
  match pickFirst (store.filter (eligible host availableCpus)) with
  | none => (none, store)
  | some j =>
    (some j.id,
     updateFirst (fun x => x.id == j.id)
       (fun x => { x with started := some now, nodes := some host }) store)

example :
    startJob "n1".data 4 7
      [{ id := 1, name := "a".data, username := "u".data, filename := "f".data,
         ncpus := some 1, priority := 0, nodes := none, node := none,
         submitted := 0, started := none, finished := none }] =
    (some 1,
     [{ id := 1, name := "a".data, username := "u".data, filename := "f".data,
        ncpus := some 1, priority := 0, nodes := some "n1".data, node := none,
        submitted := 0, started := some 7, finished := none }]) := rfl

example : nodesMatch "n1".data (some "n10".data) = false := by decide

example : nodesMatch "n1".data (some "n10,n1".data) = true := by decide

example : nodesMatch "n1".data (some "n1,n2".data) = true := by decide

example : nodesMatch "n1".data (some "a,n1,b".data) = true := by decide

example : nodesMatch "n1".data none = true := by decide

/-- Delete the first list element satisfying `p` (`session.delete(job)` on
the row the query returned). -/
def removeFirst (p : Job → Bool) : List Job → List Job
  | [] => []
  | j :: rest => if p j then rest else j :: removeFirst p rest

/-- The exception Python raises when `job.started = ...` is executed on
`job = None`. -/
def attributeError : PyErr :=
  .otherError "AttributeError: NoneType object has no attribute started".data

/-- `PyBSdaemon.remove`: look the row up, raise `ValueError` when absent,
delete it, and kill the subprocess when the process registry holds one for
this id.  Returns the table after commit and the killed ids. -/
def removeRpc (store : List Job) (processes : List Nat) (jobId : Nat) :
    Except PyErr (List Job × List Nat) :=
  match findFirst store jobId with
  | none => .error (.valueError "Job not found.".data)
  | some _ =>
    .ok (removeFirst (fun j => j.id == jobId) store,
         if processes.contains jobId then [jobId] else [])

/-- `PyBSdaemon.run`: look the row up; when absent the code only
*constructs* `ValueError('Job not found.')` without raising it, so control
falls through to `job.started = datetime.datetime.now()` on `None`, which
raises `AttributeError` instead.  When present, `started` is overwritten
with the current time — with no check of the row's state and no write to
`node` or `nodes` — and the id is handed to a fresh supervisor task.
Returns the table after commit and the spawned ids. -/
def runRpc (store : List Job) (now : Nat) (jobId : Nat) :
    Except PyErr (List Job × List Nat) :=
  match findFirst store jobId with
  | none => .error attributeError
  | some j =>
    .ok (updateFirst (fun x => x.id == jobId)
           (fun x => { x with started := some now }) store,
         [j.id])

/-- A message handed to a notification transport; the rendered body is the
same template either way and carries no scheduling state, so only the
transport and recipient are recorded. -/
inductive Notification : Type where
  | email (rcpt : HVal)
  | slack (channel : HVal)
deriving DecidableEq, Repr

/-- `PyBSdaemon._send_message`: read the `send_mail` mode, return without a
message when the exit code is not covered by the mode letters, otherwise
send to the email address when one is present, else to the slack channel
when one is present, else nothing.  (The call site guards on `send_mail`
being present; only the `priority` key can hold an `int`, so the mode is
always a string.) -/
def sendMessage (header : Header) (returnCode : Int) : Option Notification :=
  match hfind header "send_mail".data with
  | some (.s mode) =>
    if (!(mode.contains 'e') && returnCode == 0) ||
        (!(mode.contains 'a') && returnCode != 0) then none
    else
      match hfind header "email".data with
      | some v => some (.email v)
      | none =>
        match hfind header "slack".data with
        | some v => some (.slack v)
        | none => none
  | _ => none

/-- `job.finished = datetime.datetime.now()` on the row with this id. -/
def stampFinished (store : List Job) (jobId : Nat) (now : Nat) : List Job :=
  updateFirst (fun x => x.id == jobId)
    (fun x => { x with finished := some now }) store

/-- What `await asyncio.create_subprocess_shell(...)` followed by
`communicate()` produced when the spawn did not raise. -/
structure SpawnOk : Type where
  returnCode : Int
  outs : Str
  errs : Str
deriving DecidableEq, Repr

/-- Result of one supervisor run: the table after the final commit, the
notification that was sent (if any), and the exception that escaped the
supervisor task (if any). -/
structure RunOutcome : Type where
  store : List Job
  notified : Option Notification
  raised : Option PyErr
deriving DecidableEq, Repr

/-- The file system: filename to list of lines. -/
abbrev FS : Type := List (Str × List Str)

/-- `os.path.exists` / `open` on the modelled file system. -/
def fsLookup (fs : FS) (name : Str) : Option (List Str) :=
  (fs.find? (fun p => p.1 == name)).map (fun p => p.2)

/-- Exception for `open()` on a missing file. -/
def fileNotFoundError : PyErr := .otherError "FileNotFoundError".data

/-- Exception for a failing `create_subprocess_shell`. -/
def spawnError : PyErr := .otherError "OSError: could not spawn subprocess".data

/-- The exception raised in `_run_job`'s `finally` block when the spawn
failed: `self._send_message(header, job, return_code, outs, errs)` reads
local names that were never bound. -/
def nameError : PyErr := .otherError "NameError: name return_code is not defined".data

/-- `PyBSdaemon._run_job` for job `jobId`, with `spawn` the outcome of the
subprocess (`none` models a spawn that raises).  Control flow of the source:
`header = {}`; then a `try` block reads the row (returning unchanged when it
is gone), parses the header and spawns; the `finally` block stamps
`finished` and, when `send_mail` is in the header, calls `_send_message`.
An exception in the `try` still reaches the `finally` with `header` holding
whatever was assigned before it was raised; an exception inside the
`finally`'s transaction rolls the `finished` stamp back.  Capture files
written to disk are not part of the outcome (write errors are swallowed and
the table does not depend on them). -/
def runJob (fs : FS) (now : Nat) (spawn : Option SpawnOk) (store : List Job)
    (jobId : Nat) : RunOutcome :=
  match findFirst store jobId with
  | none => ⟨store, none, none⟩
  | some job =>
    match fsLookup fs job.filename with
    | none =>
      -- open() raised; header is still {}: the finally stamps finished and
      -- the exception propagates to the supervisor task
      ⟨stampFinished store jobId now, none, some fileNotFoundError⟩
    | some lines =>
      match parseHeader lines with
      | .error e => ⟨stampFinished store jobId now, none, some e⟩
      | .ok header =>
        match spawn with
        | none =>
          if (hfind header "send_mail".data).isSome then
            -- the NameError aborts the finally's transaction: rollback, so
            -- the finished stamp is lost, no message is sent, and the
            -- NameError propagates
            ⟨store, none, some nameError⟩
          else
            ⟨stampFinished store jobId now, none, some spawnError⟩
        | some s =>
          -- the second row lookup inside the finally; in this sequential
          -- model the row is still present
          match findFirst store jobId with
          | none => ⟨store, none, none⟩
          | some _ =>
            ⟨stampFinished store jobId now,
             if (hfind header "send_mail".data).isSome then
               sendMessage header s.returnCode
             else none,
             none⟩

/-- Value stored in the `ncpus` INTEGER column for the header string:
decimal text arrives as its integer value, any other text stays text
(modelled `none`). -/
def ncpusOfVal : HVal → Option Int
  | .i n => some n
  | .s v => parseInt v

/-- Value stored in the `priority` INTEGER column.  The parser only ever
puts an `int` under the `priority` key; a string could reach it only
through a contrived `-l priority=...` line, whose non-numeric case no claim
touches and which is modelled as 0. -/
def priorityOfVal : HVal → Int
  | .i n => n
  | .s v => (parseInt v).getD 0

/-- A header string value; the `name` and `nodes` keys can only hold
strings (`-N`, `-l` both store strings). -/
def hvalToStr : HVal → Str
  | .s v => v
  | .i _ => []

/-- `PyBSdaemon.submit` together with `Job.from_file`: fail with
`ValueError` when the file does not exist; parse the header (its
exceptions propagate); fail with `ValueError` when `name` or `ncpus` is
missing; otherwise insert a new row — `submitted` stamped, `started` and
`finished` empty, `username` and `filename` from the arguments — and return
its id.  On any failure nothing has been added to the table. -/
def submitRpc (fs : FS) (now : Nat) (nextId : Nat) (store : List Job)
    (filename user : Str) : Except PyErr (Nat × List Job) :=
  match fsLookup fs filename with
  | none => .error (.valueError "File does not exist.".data)
  | some lines =>
    match parseHeader lines with
    | .error e => .error e
    | .ok header =>
      match hfind header "name".data with
      | none => .error (.valueError "No job name given in PBS header.".data)
      | some nameV =>
        match hfind header "ncpus".data with
        | none => .error (.valueError "No ncpus given in PBS header.".data)
        | some ncpusV =>
          .ok (nextId,
            store ++
              [{ id := nextId, name := hvalToStr nameV, username := user,
                 filename := filename, ncpus := ncpusOfVal ncpusV,
                 priority :=
                   match hfind header "priority".data with
                   | some v => priorityOfVal v
                   | none => 0,
                 nodes := (hfind header "nodes".data).map hvalToStr,
                 node := none, submitted := now, started := none,
                 finished := none }])

/-- A JSON-RPC reply line: a result envelope or an error envelope, each
carrying the id it echoes. -/
inductive RpcReply (V : Type) : Type where
  | result (value : V) (id : Int)
  | error (code : Int) (message : Str) (id : Int)
deriving DecidableEq, Repr

/-- `RpcServer.handle_request`: when the daemon object has no attribute of
the requested name, reply `-32601`; otherwise call the method on the
request parameters inside `try ... except ValueError`, replying `-32603`
with the exception text on `ValueError` and a result envelope on success.
Any other exception escapes the coroutine: no reply is written at all
(`none`). -/
def handleRequest {P V : Type} (handler : Str → Option (P → Except PyErr V))
    (method : Str) (params : P) (rid : Int) : Option (RpcReply V) :=
  match handler method with
  | none => some (.error (-32601) "Method not found".data rid)
  | some f =>
    match f params with
    | .ok v => some (.result v rid)
    | .error (.valueError msg) => some (.error (-32603) msg rid)
    | .error (.otherError _) => none

/-- The daemon object seen through `hasattr`/`getattr`, restricted to the
two job-id methods (the integer parameter is the `job_id` argument). -/
def runRemoveHandlers (store : List Job) (now : Nat) (processes : List Nat) :
    Str → Option (Nat → Except PyErr (List Job × List Nat)) :=
  fun m =>
    if m == "run".data then some (fun jobId => runRpc store now jobId)
    else if m == "remove".data then some (fun jobId => removeRpc store processes jobId)
    else none

/-- The daemon object restricted to `submit` (the parameters are
`filename` and `user`). -/
def submitHandlers (fs : FS) (now : Nat) (nextId : Nat) (store : List Job) :
    Str → Option (Str × Str → Except PyErr (Nat × List Job)) :=
  fun m =>
    if m == "submit".data then
      some (fun p => submitRpc fs now nextId store p.1 p.2)
    else none

/-! ## Helper lemmas -/

/-- Updating rows leaves every column that the update function does not
touch unchanged across the whole table. -/
theorem updateFirst_map_eq {α : Type} (p : Job → Bool) (f : Job → Job)
    (g : Job → α) (hg : ∀ j, g (f j) = g j) :
    ∀ store : List Job, (updateFirst p f store).map g = store.map g := by
  intro store
  induction store with
  | nil => rfl
  | cons j rest ih =>
    by_cases hp : p j
    · simp [updateFirst, hp, hg]
    · simp [updateFirst, hp, ih]

/-- The row `find?` returns is, after `updateFirst` with the same
predicate, present in updated form. -/
theorem find?_updateFirst_mem (p : Job → Bool) (f : Job → Job) :
    ∀ (store : List Job) (j : Job), store.find? p = some j →
      f j ∈ updateFirst p f store := by
  intro store
  induction store with
  | nil => intro j h; simp at h
  | cons x rest ih =>
    intro j h
    by_cases hp : p x
    · rw [List.find?_cons_of_pos _ hp] at h
      cases h
      simp [updateFirst, hp]
    · rw [List.find?_cons_of_neg _ hp] at h
      simp [updateFirst, hp, ih j h]

/-- If some row satisfies `p`, then `updateFirst` rewrites one row of the
table that satisfied `p`. -/
theorem updateFirst_exists (p : Job → Bool) (f : Job → Job) :
    ∀ store : List Job, (∃ x ∈ store, p x = true) →
      ∃ j ∈ store, p j = true ∧ f j ∈ updateFirst p f store := by
  intro store
  induction store with
  | nil => rintro ⟨x, hx, _⟩; simp at hx
  | cons x rest ih =>
    rintro ⟨y, hy, hpy⟩
    by_cases hp : p x
    · exact ⟨x, List.mem_cons_self x rest, hp, by simp [updateFirst, hp]⟩
    · have hyr : y ∈ rest := by
        rcases List.mem_cons.mp hy with h | h
        · exact absurd (h ▸ hpy) (by simpa using hp)
        · exact h
      obtain ⟨j, hj, hpj, hmem⟩ := ih ⟨y, hyr, hpy⟩
      exact ⟨j, List.mem_cons_of_mem x hj, hpj, by simp [updateFirst, hp, hmem]⟩

/-- `better` in propositional form. -/
theorem better_iff (a b : Job) :
    better a b = true ↔
      b.priority < a.priority ∨
        (a.priority = b.priority ∧ a.submitted < b.submitted) := by
  simp [better]

/-- The sort order is irreflexive. -/
theorem better_self (a : Job) : better a a = false := by
  rw [Bool.eq_false_iff]
  intro h
  rcases (better_iff a a).mp h with h | h
  · omega
  · omega

/-- A row is never strictly better than one that beat a row it did not
beat. -/
theorem better_of_not_better (a b c : Job) (hab : better a b = true)
    (hac : better a c = false) : better b c = false := by
  rw [Bool.eq_false_iff] at hac ⊢
  intro hbc
  rcases (better_iff a b).mp hab with h1 | h1 <;>
    rcases (better_iff b c).mp hbc with h2 | h2 <;>
      exact hac ((better_iff a c).mpr (by omega))

/-- Not-strictly-better is transitive. -/
theorem not_better_trans (a b c : Job) (hab : better a b = false)
    (hbc : better b c = false) : better a c = false := by
  rw [Bool.eq_false_iff] at hab hbc ⊢
  intro hac
  rcases (better_iff a c).mp hac with h1 | h1
  · by_cases h : b.priority < a.priority
    · exact hab ((better_iff a b).mpr (Or.inl h))
    · exact hbc ((better_iff b c).mpr (Or.inl (by omega)))
  · by_cases h : b.priority < a.priority
    · exact hab ((better_iff a b).mpr (Or.inl h))
    · by_cases h2 : c.priority < b.priority
      · exact hbc ((better_iff b c).mpr (Or.inl h2))
      · by_cases h3 : a.submitted < b.submitted
        · exact hab ((better_iff a b).mpr (Or.inr ⟨by omega, h3⟩))
        · exact hbc ((better_iff b c).mpr (Or.inr ⟨by omega, by omega⟩))

/-- The fold inside `pickFirst` returns one of its inputs. -/
theorem pickFold_mem (l : List Job) :
    ∀ best : Job, l.foldl pickStep best ∈ best :: l := by
  induction l with
  | nil => intro best; simp
  | cons a l ih =>
    intro best
    rw [List.foldl_cons]
    rcases List.mem_cons.mp (ih (pickStep best a)) with h1 | h1
    · rw [h1, pickStep]
      by_cases h : better a best
      · simp [h, List.mem_cons]
      · simp [h, List.mem_cons]
    · exact List.mem_cons_of_mem _ (List.mem_cons_of_mem a h1)

/-- No input to the fold inside `pickFirst` is strictly better than its
result: the result is maximal for the `ORDER BY` key. -/
theorem pickFold_not_better (l : List Job) :
    ∀ best : Job, ∀ x ∈ best :: l,
      better x (l.foldl pickStep best) = false := by
  induction l with
  | nil =>
    intro best x hx
    rcases List.mem_cons.mp hx with h | h
    · subst h; exact better_self x
    · simp at h
  | cons a l ih =>
    intro best x hx
    rw [List.foldl_cons]
    by_cases h : better a best
    · have hstep : pickStep best a = a := by simp [pickStep, h]
      rw [hstep]
      rcases List.mem_cons.mp hx with h1 | h1
      · subst h1
        exact better_of_not_better a x _ h (ih a a (List.mem_cons_self a l))
      · rcases List.mem_cons.mp h1 with h2 | h2
        · subst h2; exact ih x x (List.mem_cons_self x l)
        · exact ih a x (List.mem_cons_of_mem a h2)
    · have hab : better a best = false := by rw [Bool.eq_false_iff]; exact h
      have hstep : pickStep best a = best := by simp [pickStep, hab]
      rw [hstep]
      rcases List.mem_cons.mp hx with h1 | h1
      · subst h1; exact ih x x (List.mem_cons_self x l)
      · rcases List.mem_cons.mp h1 with h2 | h2
        · subst h2
          exact not_better_trans x best _ hab (ih best best (List.mem_cons_self best l))
        · exact ih best x (List.mem_cons_of_mem best h2)

/-- `pickFirst` returns a member of its input. -/
theorem pickFirst_mem (l : List Job) (j : Job) (h : pickFirst l = some j) :
    j ∈ l := by
  cases l with
  | nil => simp [pickFirst] at h
  | cons a rest =>
    simp only [pickFirst, Option.some.injEq] at h
    exact h ▸ pickFold_mem rest a

/-- Nothing in the input is strictly better than what `pickFirst`
returns. -/
theorem pickFirst_not_better (l : List Job) (j : Job) (h : pickFirst l = some j) :
    ∀ x ∈ l, better x j = false := by
  cases l with
  | nil => simp [pickFirst] at h
  | cons a rest =>
    simp only [pickFirst, Option.some.injEq] at h
    exact fun x hx => h ▸ pickFold_not_better rest a x hx

/-! ## Concrete rows used by counterexamples and witnesses -/

/-- A freshly submitted `WAITING` row. -/
def baseJob : Job :=
  { id := 1, name := "j".data, username := "u".data, filename := "f".data,
    ncpus := some 1, priority := 0, nodes := none, node := none,
    submitted := 0, started := none, finished := none }

/-- A `FINISHED` row. -/
def jobFinished : Job :=
  { baseJob with started := some 2, finished := some 3 }

/-- Two rows that tie on both sort keys and differ only in their id. -/
def jobTieA : Job := { baseJob with id := 1, priority := 5, submitted := 3 }

/-- See `jobTieA`. -/
def jobTieB : Job := { baseJob with id := 2, priority := 5, submitted := 3 }

/-- A low-priority row. -/
def jobLow : Job := { baseJob with id := 3, priority := 0, submitted := 0 }

/-! ## C10 -/

/-- C10: `run(job_id)` performs no state check on the target job: for every
job row present in the store — whatever its `started`/`finished` state —
`run` succeeds, overwrites `started` with the current time, hands the job id
to a fresh supervisor task, and never writes the `node` (or `nodes`, or
`finished`) column. -/
theorem run_overwrites_started_unconditionally
    (store : List Job) (now : Nat) (jobId : Nat) (j : Job)
    (h : findFirst store jobId = some j) :
    ∃ store', runRpc store now jobId = .ok (store', [j.id]) ∧
      store'.map Job.node = store.map Job.node ∧
      store'.map Job.nodes = store.map Job.nodes ∧
      store'.map Job.finished = store.map Job.finished ∧
      { j with started := some now } ∈ store' := by
  refine ⟨updateFirst (fun x => x.id == jobId)
      (fun x => { x with started := some now }) store, ?_, ?_, ?_, ?_, ?_⟩
  · simp [runRpc, h]
  · exact updateFirst_map_eq (fun x => x.id == jobId)
      (fun x => { x with started := some now }) Job.node (fun x => rfl) store
  · exact updateFirst_map_eq (fun x => x.id == jobId)
      (fun x => { x with started := some now }) Job.nodes (fun x => rfl) store
  · exact updateFirst_map_eq (fun x => x.id == jobId)
      (fun x => { x with started := some now }) Job.finished (fun x => rfl) store
  · exact find?_updateFirst_mem _ _ store j h

/-- Witness for C10 at a `FINISHED` row: `run` happily restamps `started`
and respawns the script of an already finished job. -/
theorem run_overwrites_started_unconditionally_witness :
    ∃ store', runRpc [jobFinished] 9 1 = .ok (store', [jobFinished.id]) ∧
      store'.map Job.node = [jobFinished].map Job.node ∧
      store'.map Job.nodes = [jobFinished].map Job.nodes ∧
      store'.map Job.finished = [jobFinished].map Job.finished ∧
      { jobFinished with started := some 9 } ∈ store' :=
  run_overwrites_started_unconditionally [jobFinished] 9 1 jobFinished rfl

/-! ## C2 -/

/-- C2 (code bug): with an unknown job id, `remove` raises
`ValueError('Job not found.')` which the RPC layer converts to a `-32603`
envelope — but `run` only *constructs* that `ValueError` without `raise`,
then crashes with `AttributeError` on `job.started = ...`, an exception
class `handle_request`'s `except ValueError` does not catch, so the client
gets no reply at all instead of the claimed `-32603` envelope. -/
theorem remove_raises_but_run_crashes_on_unknown_id :
    removeRpc [] [] 1 = .error (.valueError "Job not found.".data) ∧
    handleRequest (runRemoveHandlers [] 0 []) "remove".data 1 7 =
      some (.error (-32603) "Job not found.".data 7) ∧
    runRpc [] 0 1 = .error attributeError ∧
    handleRequest (runRemoveHandlers [] 0 []) "run".data 1 7 = none :=
  ⟨rfl, rfl, rfl, rfl⟩

/-! ## C6 -/

/-- C6 counterexample: a handler exception that is not a `ValueError`
(here: `run` on an id absent from the store raises `AttributeError`)
produces *no* reply — the claim promises an error envelope with code
`-32603` for every handler exception. -/
theorem handler_exception_yields_no_reply :
    handleRequest (runRemoveHandlers [] 5 []) "run".data 2 9 = none := rfl

/-- The id carried by a reply envelope. -/
def rpcReplyId {V : Type} : RpcReply V → Int
  | .result _ i => i
  | .error _ _ i => i

/-- C6 amended: an unknown method yields a `-32601` envelope; a handler
`ValueError` yields a `-32603` envelope carrying the thrown reason; a
successful handler yields a result envelope; any *other* handler exception
yields no reply at all; and every reply that is emitted echoes the
request's id. -/
theorem handle_request_reply_characterization {P V : Type}
    (handler : Str → Option (P → Except PyErr V)) (method : Str)
    (params : P) (rid : Int) :
    (handler method = none →
      handleRequest handler method params rid =
        some (.error (-32601) "Method not found".data rid)) ∧
    (∀ f v, handler method = some f → f params = .ok v →
      handleRequest handler method params rid = some (.result v rid)) ∧
    (∀ f msg, handler method = some f → f params = .error (.valueError msg) →
      handleRequest handler method params rid = some (.error (-32603) msg rid)) ∧
    (∀ f msg, handler method = some f → f params = .error (.otherError msg) →
      handleRequest handler method params rid = none) ∧
    (∀ r, handleRequest handler method params rid = some r →
      rpcReplyId r = rid) := by
  refine ⟨?_, ?_, ?_, ?_, ?_⟩
  · intro h; simp [handleRequest, h]
  · intro f v hf hv; simp [handleRequest, hf, hv]
  · intro f msg hf hv; simp [handleRequest, hf, hv]
  · intro f msg hf hv; simp [handleRequest, hf, hv]
  · intro r h
    cases hm : handler method with
    | none =>
      have h2 : handleRequest handler method params rid =
          some (.error (-32601) "Method not found".data rid) := by
        simp [handleRequest, hm]
      rw [h2] at h; cases h; rfl
    | some f =>
      cases hv : f params with
      | ok v =>
        have h2 : handleRequest handler method params rid =
            some (.result v rid) := by simp [handleRequest, hm, hv]
        rw [h2] at h; cases h; rfl
      | error e =>
        cases e with
        | valueError m =>
          have h2 : handleRequest handler method params rid =
              some (.error (-32603) m rid) := by simp [handleRequest, hm, hv]
          rw [h2] at h; cases h; rfl
        | otherError m =>
          have h2 : handleRequest handler method params rid = none := by
            simp [handleRequest, hm, hv]
          rw [h2] at h; cases h

/-- Witness for C6 amended: requesting a method the daemon object does not
have draws the `-32601` envelope, echoing the request id. -/
theorem handle_request_reply_characterization_witness :
    handleRequest (runRemoveHandlers [] 0 []) "nope".data 1 7 =
      some (.error (-32601) "Method not found".data 7) :=
  (handle_request_reply_characterization (runRemoveHandlers [] 0 [])
    "nope".data 1 7).1 rfl

/-! ## C1 -/

/-- C1 counterexample: a successful claim of a `WAITING` row stamps
`started` but leaves the `node` column empty — `_start_job` writes
`job.nodes`, never `job.node` — so after the commit there is a row with
`started ≠ ∅` and `node = ∅`, refuting I2 and the claim that `claim_next`
stamps `started` and the `node` field. -/
theorem claim_leaves_node_column_empty :
    (startJob "n1".data 4 7 [baseJob]).1 = some 1 ∧
    (startJob "n1".data 4 7 [baseJob]).2.map Job.started = [some 7] ∧
    (startJob "n1".data 4 7 [baseJob]).2.map Job.node = [none] :=
  ⟨rfl, rfl, rfl⟩

/-- C1 amended: a successful claim stamps `started` and overwrites the
`nodes` column (the affinity list) with the claiming node's name before
commit; the `node` column is never written by the dispatcher and stays
whatever it was on every row. -/
theorem claim_stamps_started_and_nodes
    (host : Str) (cpus : Int) (now : Nat) (store : List Job) (jid : Nat)
    (store' : List Job)
    (h : startJob host cpus now store = (some jid, store')) :
    store'.map Job.node = store.map Job.node ∧
    ∃ j ∈ store, j.id = jid ∧
      { j with started := some now, nodes := some host } ∈ store' := by
  unfold startJob at h
  cases hp : pickFirst (store.filter (eligible host cpus)) with
  | none => rw [hp] at h; simp at h
  | some j0 =>
    rw [hp] at h
    injection h with h1 h2
    injection h1 with h1
    subst h2
    constructor
    · exact updateFirst_map_eq (fun x => x.id == j0.id)
        (fun x => { x with started := some now, nodes := some host })
        Job.node (fun x => rfl) store
    · have hmem : j0 ∈ store := (List.mem_filter.mp (pickFirst_mem _ _ hp)).1
      obtain ⟨j, hj, hpj, hup⟩ :=
        updateFirst_exists (fun x => x.id == j0.id)
          (fun x => { x with started := some now, nodes := some host }) store
          ⟨j0, hmem, by simp⟩
      have hid : j.id = j0.id := by simpa using hpj
      exact ⟨j, hj, by rw [← h1]; exact hid, hup⟩

/-- Witness for C1 amended: the single waiting row is claimed, its
`started` and `nodes` are stamped, its `node` column stays empty. -/
theorem claim_stamps_started_and_nodes_witness :
    (startJob "n1".data 4 7 [baseJob]).2.map Job.node = [baseJob].map Job.node ∧
    ∃ j ∈ [baseJob], j.id = 1 ∧
      { j with started := some 7, nodes := some "n1".data } ∈
        (startJob "n1".data 4 7 [baseJob]).2 :=
  claim_stamps_started_and_nodes "n1".data 4 7 [baseJob] 1
    (startJob "n1".data 4 7 [baseJob]).2 rfl

/-! ## C3 -/

/-- C3 counterexample: two eligible rows tying on priority and submitted.
The dispatch query orders only by `(priority DESC, submitted ASC)` — there
is no id key — so the claimed row is whichever of the tied rows the
database returns first: with the same two rows the claim goes to id 2 or to
id 1 depending on return order.  No deterministic id tiebreak exists, and
in the first table the claimed row is not the tied row with the smaller
id. -/
theorem tie_break_not_by_id :
    (startJob "n1".data 4 9 [jobTieB, jobTieA]).1 = some 2 ∧
    (startJob "n1".data 4 9 [jobTieA, jobTieB]).1 = some 1 ∧
    jobTieA.priority = jobTieB.priority ∧
    jobTieA.submitted = jobTieB.submitted ∧
    jobTieA.id < jobTieB.id ∧
    eligible "n1".data 4 jobTieA = true ∧
    eligible "n1".data 4 jobTieB = true :=
  ⟨rfl, rfl, rfl, rfl, Nat.lt_succ_self 1, rfl, rfl⟩

/-- C3 amended: the claimed row is eligible and, among all eligible rows,
none has strictly higher priority, nor equal priority and a strictly older
`submitted`; rows tying on both keys are taken in the order the database
returns them (no id tiebreak). -/
theorem claim_maximizes_priority_then_oldest
    (host : Str) (cpus : Int) (now : Nat) (store : List Job) (jid : Nat)
    (store' : List Job)
    (h : startJob host cpus now store = (some jid, store')) :
    ∃ j ∈ store, j.id = jid ∧ eligible host cpus j = true ∧
      ∀ k ∈ store, eligible host cpus k = true → better k j = false := by
  unfold startJob at h
  cases hp : pickFirst (store.filter (eligible host cpus)) with
  | none => rw [hp] at h; simp at h
  | some j0 =>
    rw [hp] at h
    injection h with h1 h2
    injection h1 with h1
    have hmem := List.mem_filter.mp (pickFirst_mem _ _ hp)
    refine ⟨j0, hmem.1, h1, hmem.2, ?_⟩
    intro k hk hek
    exact pickFirst_not_better _ _ hp k (List.mem_filter.mpr ⟨hk, hek⟩)

/-- Witness for C3 amended: with a low-priority and a high-priority row in
the table, the high-priority row (id 1) is claimed and nothing eligible
beats it. -/
theorem claim_maximizes_priority_then_oldest_witness :
    ∃ j ∈ [jobLow, jobTieA], j.id = 1 ∧
      eligible "n1".data 4 j = true ∧
      ∀ k ∈ [jobLow, jobTieA], eligible "n1".data 4 k = true →
        better k j = false :=
  claim_maximizes_priority_then_oldest "n1".data 4 9 [jobLow, jobTieA] 1
    (startJob "n1".data 4 9 [jobLow, jobTieA]).2 rfl

/-! ## C9 -/

/-- A `RUNNING` row for the script file `f`. -/
def jobRunning : Job := { baseJob with started := some 3 }

/-- A script whose header requests mail on success but names no
transport. -/
def fsOnlyMode : FS := [("f".data, ["#PBS -m e".data])]

/-- C9 counterexample: the job completes with exit code 0 and its header
holds `send_mail` mode `e` — the claim says the notifier is invoked — but
the header names neither an email address nor a slack channel, so
`_send_message` falls through both transport branches and nothing is
invoked. -/
theorem mode_match_without_transport_sends_nothing :
    (runJob fsOnlyMode 9 (some ⟨0, "ok".data, "".data⟩) [jobRunning] 1).notified =
      none ∧
    "e".data.contains 'e' = true :=
  ⟨rfl, rfl⟩

/-- The early-return guard of `_send_message` lets the call through exactly
when the exit code is covered by the mode letters, each letter acting
independently. -/
theorem sendGuard_iff (mode : Str) (rc : Int) :
    ((!(mode.contains 'e') && rc == 0) ||
        (!(mode.contains 'a') && rc != 0)) = false ↔
      ((rc = 0 ∧ mode.contains 'e' = true) ∨
        (rc ≠ 0 ∧ mode.contains 'a' = true)) := by
  cases he : mode.contains 'e' <;> cases ha : mode.contains 'a' <;>
    by_cases h0 : rc = 0 <;> simp [he, ha, h0]

/-- C9 amended: for a completed job whose header contains `send_mail` with
mode string `m` *and names a transport* (an email address or a slack
channel), the notifier is invoked iff (the exit code is 0 and `e` occurs in
`m`) or (the exit code is nonzero and `a` occurs in `m`); the two letters
act independently.  Without a transport key nothing is invoked. -/
theorem notifier_fires_iff_mode_matches_and_transport
    (header : Header) (rc : Int) (mode : Str)
    (hm : hfind header "send_mail".data = some (.s mode))
    (ht : (hfind header "email".data).isSome = true ∨
      (hfind header "slack".data).isSome = true) :
    (sendMessage header rc).isSome = true ↔
      ((rc = 0 ∧ mode.contains 'e' = true) ∨
        (rc ≠ 0 ∧ mode.contains 'a' = true)) := by
  unfold sendMessage
  rw [hm]
  dsimp only
  by_cases hg : ((!(mode.contains 'e') && rc == 0) ||
      (!(mode.contains 'a') && rc != 0)) = true
  · rw [if_pos hg]
    simp only [Option.isSome_none, Bool.false_eq_true, false_iff]
    intro hr
    rw [(sendGuard_iff mode rc).mpr hr] at hg
    cases hg
  · have hgf := Bool.eq_false_iff.mpr hg
    rw [if_neg hg]
    constructor
    · intro _; exact (sendGuard_iff mode rc).mp hgf
    · intro _
      cases he : hfind header "email".data with
      | some v => simp [he]
      | none =>
        cases hs : hfind header "slack".data with
        | some w => simp [he, hs]
        | none =>
          exfalso
          rcases ht with h | h
          · rw [he] at h; cases h
          · rw [hs] at h; cases h

/-- A header requesting mail on failure with an email transport. -/
def headerMailOnFailure : Header :=
  [("send_mail".data, .s "a".data), ("email".data, .s "user@host".data)]

/-- Witness for C9 amended: mode `a`, exit code 1, email present — the
equivalence instantiates and both sides hold. -/
theorem notifier_fires_iff_mode_matches_and_transport_witness :
    (sendMessage headerMailOnFailure 1).isSome = true ↔
      (((1 : Int) = 0 ∧ "a".data.contains 'e' = true) ∨
        ((1 : Int) ≠ 0 ∧ "a".data.contains 'a' = true)) :=
  notifier_fires_iff_mode_matches_and_transport headerMailOnFailure 1 "a".data
    rfl (Or.inl rfl)

/-! ## C8 -/

/-- A directive line `#PBS -c v`. -/
def pbsLine (c : Char) (v : Str) : Str :=
  '#' :: 'P' :: 'B' :: 'S' :: ' ' :: '-' :: c :: ' ' :: v

/-- C8 counterexample: on `#PBS -l a=b=c` the parser stores value `b`, not
the entire remainder `b=c` — `split('=')` cuts at *every* `=` and only
`s[1]` is kept, so a value containing further `=` characters loses them. -/
theorem l_value_truncated_at_second_equals :
    parseHeader [pbsLine 'l' "a=b=c".data] = .ok [("a".data, .s "b".data)] ∧
    "b".data ≠ "b=c".data :=
  ⟨rfl, by decide⟩

/-- C8 amended: a `#PBS -l v` line stores the text left of the first `=`
as the key and the text *between the first and second* `=` as the value
(text after a second `=` is dropped); a `-l` line without any `=` raises
`IndexError`; and any line not matching the directive pattern is skipped
with parsing continuing. -/
theorem l_directive_splits_on_every_equals :
    (∀ (acc : Header) (rest : List Str) (v k w : Str) (ws : List Str),
      splitOnChar '=' v = k :: w :: ws →
      parseHeaderAux acc (pbsLine 'l' v :: rest) =
        parseHeaderAux ((k, .s w) :: acc) rest) ∧
    (∀ (acc : Header) (rest : List Str) (v k : Str),
      splitOnChar '=' v = [k] →
      parseHeaderAux acc (pbsLine 'l' v :: rest) = .error indexError) ∧
    (∀ (acc : Header) (rest : List Str) (line : Str),
      matchPBS line = none →
      parseHeaderAux acc (line :: rest) = parseHeaderAux acc rest) := by
  have hm : ∀ v : Str, matchPBS (pbsLine 'l' v) = some ('l', v) := fun v => rfl
  refine ⟨?_, ?_, ?_⟩
  · intro acc rest v k w ws hv
    simp [parseHeaderAux, hm, hv]
  · intro acc rest v k hv
    simp [parseHeaderAux, hm, hv]
  · intro acc rest line hline
    simp [parseHeaderAux, hline]

/-- Witness for C8 amended: `ncpus=20` yields key `ncpus` and value `20`
exactly as the spec's example says. -/
theorem l_directive_splits_on_every_equals_witness :
    parseHeaderAux [] (pbsLine 'l' "ncpus=20".data :: []) =
      parseHeaderAux [("ncpus".data, .s "20".data)] [] :=
  l_directive_splits_on_every_equals.1 [] [] "ncpus=20".data
    "ncpus".data "20".data [] rfl

/-! ## C5 -/

/-- A script requesting mail on failure with an email address. -/
def fsMailRequested : FS :=
  [("f".data, ["#PBS -m a".data, "#PBS -M user@host".data])]

/-- C5 counterexample: the spawn fails for a job whose header requested
notification (`-m a`, `-M ...`).  The claim says the job is treated as exit
code −1, `finished` is stamped and the notifier fires.  In the code no −1
is ever synthesized: the `finally` block assigns `job.finished` but then
evaluates `_send_message(header, job, return_code, outs, errs)` whose
arguments were never bound — the `NameError` rolls the transaction back, so
the row keeps `finished = ∅` (stuck `RUNNING`), no notifier fires, and the
`NameError` escapes the supervisor task. -/
theorem spawn_failure_requested_mail_loses_finish :
    runJob fsMailRequested 9 none [jobRunning] 1 =
      ⟨[jobRunning], none, some nameError⟩ ∧
    jobRunning.finished = none :=
  ⟨rfl, rfl⟩

/-- C5 amended: if the subprocess spawn fails, no exit code of −1 is
synthesized.  When the parsed header does not request mail, the `finally`
block still stamps `finished` (the row reaches `FINISHED`) and the spawn
exception escapes the supervisor; when the header requests mail, the
`finally` block raises `NameError` on the unbound exit-code variable, the
transaction rolls back leaving the row unchanged (stuck `RUNNING`), and the
notifier does not fire. -/
theorem spawn_failure_outcome
    (fs : FS) (now : Nat) (store : List Job) (jobId : Nat) (job : Job)
    (lines : List Str) (header : Header)
    (hj : findFirst store jobId = some job)
    (hf : fsLookup fs job.filename = some lines)
    (hh : parseHeader lines = .ok header) :
    (hfind header "send_mail".data = none →
      runJob fs now none store jobId =
        ⟨stampFinished store jobId now, none, some spawnError⟩) ∧
    (∀ v, hfind header "send_mail".data = some v →
      runJob fs now none store jobId = ⟨store, none, some nameError⟩) := by
  constructor
  · intro hsm
    simp [runJob, hj, hf, hh, hsm]
  · intro v hsm
    simp [runJob, hj, hf, hh, hsm]

/-- Witness for C5 amended, mail-requested branch, at the concrete
counterexample input. -/
theorem spawn_failure_outcome_witness :
    runJob fsMailRequested 9 none [jobRunning] 1 =
      ⟨[jobRunning], none, some nameError⟩ :=
  (spawn_failure_outcome fsMailRequested 9 [jobRunning] 1 jobRunning
    ["#PBS -m a".data, "#PBS -M user@host".data]
    [("email".data, .s "user@host".data), ("send_mail".data, .s "a".data)]
    rfl rfl rfl).2 (.s "a".data) rfl

/-! ## C7 -/

/-- A script file whose header has a name and a malformed `-l` line with no
`=`. -/
def fsBadL : FS := [("g".data, ["#PBS -N x".data, "#PBS -l ncpus".data])]

/-- C7 counterexample: the file exists but its header does not yield
`ncpus` — the claim promises a validation error surfaced by the RPC layer
as `-32603`.  Instead the malformed `-l` line raises `IndexError`
(`s[1]` on a one-element split), which `except ValueError` does not catch:
the RPC layer emits no envelope at all.  No row is inserted either way. -/
theorem submit_error_not_surfaced_as_rpc_error :
    submitRpc fsBadL 0 1 [] "g".data "u".data = .error indexError ∧
    handleRequest (submitHandlers fsBadL 0 1 []) "submit".data
      ("g".data, "u".data) 7 = none :=
  ⟨rfl, rfl⟩

/-- C7 amended: `submit(filename, user)` appends a new `WAITING` row
(`started = finished = ∅`, `submitted` stamped, the caller's user and
filename) and returns its id iff the file exists, its header parses, and
the parsed header contains both `name` and `ncpus`.  Otherwise no row is
inserted and an error is raised: a `ValueError` (surfaced as `-32603`)
when the file is missing or the parsed header lacks `name` or `ncpus`, but
a header-parse exception propagates as-is — in particular an `IndexError`
from a `-l` line without `=`, which the RPC layer does not convert. -/
theorem submit_inserts_iff_header_complete
    (fs : FS) (now : Nat) (nextId : Nat) (store : List Job)
    (filename user : Str) :
    ((∃ r, submitRpc fs now nextId store filename user = .ok r) ↔
      (∃ lines header, fsLookup fs filename = some lines ∧
        parseHeader lines = .ok header ∧
        (hfind header "name".data).isSome = true ∧
        (hfind header "ncpus".data).isSome = true)) ∧
    (∀ jid store', submitRpc fs now nextId store filename user =
        .ok (jid, store') →
      jid = nextId ∧ ∃ j : Job, store' = store ++ [j] ∧ j.id = nextId ∧
        j.started = none ∧ j.finished = none ∧ j.submitted = now ∧
        j.username = user ∧ j.filename = filename) ∧
    (fsLookup fs filename = none →
      submitRpc fs now nextId store filename user =
        .error (.valueError "File does not exist.".data)) ∧
    (∀ lines e, fsLookup fs filename = some lines →
      parseHeader lines = .error e →
      submitRpc fs now nextId store filename user = .error e) ∧
    (∀ lines header, fsLookup fs filename = some lines →
      parseHeader lines = .ok header →
      (hfind header "name".data = none →
        submitRpc fs now nextId store filename user =
          .error (.valueError "No job name given in PBS header.".data)) ∧
      (∀ nv, hfind header "name".data = some nv →
        hfind header "ncpus".data = none →
        submitRpc fs now nextId store filename user =
          .error (.valueError "No ncpus given in PBS header.".data))) := by
  refine ⟨⟨?_, ?_⟩, ?_, ?_, ?_, ?_⟩
  · rintro ⟨r, hr⟩
    cases hfs : fsLookup fs filename with
    | none => simp [submitRpc, hfs] at hr
    | some lines =>
      cases hph : parseHeader lines with
      | error e => simp [submitRpc, hfs, hph] at hr
      | ok header =>
        cases hn : hfind header "name".data with
        | none => simp [submitRpc, hfs, hph, hn] at hr
        | some nv =>
          cases hc : hfind header "ncpus".data with
          | none => simp [submitRpc, hfs, hph, hn, hc] at hr
          | some cv =>
            exact ⟨lines, header, rfl, hph, by simp [hn], by simp [hc]⟩
  · rintro ⟨lines, header, hfs, hph, hn, hc⟩
    obtain ⟨nv, hnv⟩ := Option.isSome_iff_exists.mp hn
    obtain ⟨cv, hcv⟩ := Option.isSome_iff_exists.mp hc
    simp only [submitRpc, hfs, hph, hnv, hcv]
    exact ⟨_, rfl⟩
  · intro jid store' h
    cases hfs : fsLookup fs filename with
    | none => simp [submitRpc, hfs] at h
    | some lines =>
      cases hph : parseHeader lines with
      | error e => simp [submitRpc, hfs, hph] at h
      | ok header =>
        cases hn : hfind header "name".data with
        | none => simp [submitRpc, hfs, hph, hn] at h
        | some nv =>
          cases hc : hfind header "ncpus".data with
          | none => simp [submitRpc, hfs, hph, hn, hc] at h
          | some cv =>
            simp only [submitRpc, hfs, hph, hn, hc, Except.ok.injEq,
              Prod.mk.injEq] at h
            exact ⟨h.1.symm, _, h.2.symm, rfl, rfl, rfl, rfl, rfl, rfl⟩
  · intro h; simp [submitRpc, h]
  · intro lines e hfs he; simp [submitRpc, hfs, he]
  · intro lines header hfs hph
    constructor
    · intro hn; simp [submitRpc, hfs, hph, hn]
    · intro nv hnv hc; simp [submitRpc, hfs, hph, hnv, hc]

/-- A well-formed script file. -/
def fsGood : FS := [("h".data, ["#PBS -N t".data, "#PBS -l ncpus=1".data])]

/-- Witness for C7 amended: submitting the well-formed script succeeds. -/
theorem submit_inserts_iff_header_complete_witness :
    ∃ r, submitRpc fsGood 5 1 [] "h".data "u".data = .ok r :=
  (submit_inserts_iff_header_complete fsGood 5 1 [] "h".data "u".data).1.mpr
    ⟨["#PBS -N t".data, "#PBS -l ncpus=1".data],
     [("ncpus".data, .s "1".data), ("name".data, .s "t".data)],
     rfl, rfl, rfl, rfl⟩

/-! ## C4 -/

/-- A string free of the SQL `LIKE` wildcard characters `%` and `_`. -/
def noWild (p : Str) : Bool :=
  p.all (fun c => !(c == '%') && !(c == '_'))

/-- Unpack `noWild` over a cons. -/
theorem noWild_cons {a : Char} {p : Str} (h : noWild (a :: p) = true) :
    (a == '%') = false ∧ (a == '_') = false ∧ noWild p = true := by
  simp only [noWild, List.all_cons, Bool.and_eq_true, Bool.not_eq_true'] at h
  exact ⟨h.1.1, h.1.2, h.2⟩

/-- A wildcard-free pattern matches exactly itself. -/
theorem likeMatch_literal (p : Str) (hp : noWild p = true) :
    ∀ s : Str, likeMatch p s = true ↔ p = s := by
  induction p with
  | nil => intro s; cases s <;> simp [likeMatch]
  | cons a p ih =>
    obtain ⟨h1, h2, h3⟩ := noWild_cons hp
    intro s
    cases s with
    | nil => simp [likeMatch, h1]
    | cons c t =>
      simp [likeMatch, h1, h2, ih h3 t, beq_iff_eq]

/-- A leading `%` matches a subject iff the remaining pattern matches some
suffix. -/
theorem likeMatch_percent (p : Str) (s : Str) :
    likeMatch ('%' :: p) s = true ↔ ∃ t, t <:+ s ∧ likeMatch p t = true := by
  simp [likeMatch, List.any_eq_true, List.mem_tails]

/-- `lit%` for wildcard-free `lit` matches exactly the subjects with
`lit` as a prefix. -/
theorem likeMatch_append_percent (lit : Str) (hp : noWild lit = true) :
    ∀ s : Str, likeMatch (lit ++ ['%']) s = true ↔ lit <+: s := by
  induction lit with
  | nil =>
    intro s
    constructor
    · intro _; exact List.nil_prefix
    · intro _
      rw [List.nil_append, likeMatch_percent]
      exact ⟨[], List.nil_suffix, rfl⟩
  | cons a lit ih =>
    obtain ⟨h1, h2, h3⟩ := noWild_cons hp
    intro s
    cases s with
    | nil => simp [likeMatch, h1]
    | cons c t =>
      simp [likeMatch, h1, h2, ih h3 t, beq_iff_eq, List.cons_prefix_cons]

/-- `%lit` for wildcard-free `lit` matches exactly the subjects with `lit`
as a suffix. -/
theorem likeMatch_percent_append (lit : Str) (hp : noWild lit = true)
    (s : Str) : likeMatch ('%' :: lit) s = true ↔ lit <:+ s := by
  rw [likeMatch_percent]
  constructor
  · rintro ⟨t, hts, hm⟩
    rw [(likeMatch_literal lit hp t).mp hm]
    exact hts
  · intro h
    exact ⟨lit, h, (likeMatch_literal lit hp lit).mpr rfl⟩

/-- `%lit%` for wildcard-free `lit` matches exactly the subjects with
`lit` as an infix. -/
theorem likeMatch_percent_append_percent (lit : Str) (hp : noWild lit = true)
    (s : Str) : likeMatch ('%' :: (lit ++ ['%'])) s = true ↔ lit <:+: s := by
  rw [likeMatch_percent]
  constructor
  · rintro ⟨t, hts, hm⟩
    exact List.infix_iff_prefix_suffix.mpr
      ⟨t, (likeMatch_append_percent lit hp t).mp hm, hts⟩
  · intro h
    obtain ⟨t, h1, h2⟩ := List.infix_iff_prefix_suffix.mp h
    exact ⟨t, h2, (likeMatch_append_percent lit hp t).mpr h1⟩

/-- C4 counterexample: the node name is spliced verbatim into the `LIKE`
patterns, so a `_` (or `%`) in a node name acts as a wildcard: node `n_1`
passes the affinity test against `nodes = nA1,x` although `n_1` is not a
comma-delimited member of that list (`_` matched the literal `A`).  The
claim's iff therefore fails for node names containing SQL wildcard
characters. -/
theorem underscore_in_nodename_matches_as_wildcard :
    nodesMatch "n_1".data (some "nA1,x".data) = true ∧
    "n_1".data ∉ splitOnChar ',' "nA1,x".data ∧
    "nA1,x".data ≠ "n_1".data ∧
    ¬("n_1".data ++ [',']) <+: "nA1,x".data ∧
    ¬((',' :: "n_1".data) ++ [',']) <:+: "nA1,x".data ∧
    ¬(',' :: "n_1".data) <:+ "nA1,x".data := by
  refine ⟨rfl, by decide, by decide, by decide, by decide, by decide⟩

/-- C4 amended: for a node name `h` free of the SQL wildcard characters
`%` and `_`, a present `nodes` list passes the affinity test iff `h` is a
comma-delimited member — equal to the whole string, at its start followed
by a comma, between two commas, or at its end preceded by a comma — so a
node `n1` never matches `nodes = n10`; an absent `nodes` passes on every
node.  (A wildcard character in the node name is interpreted by `LIKE`;
see the counterexample.) -/
theorem affinity_is_comma_membership (host ns : Str)
    (hw : noWild host = true) :
    (nodesMatch host (some ns) = true ↔
      (ns = host ∨ (host ++ [',']) <+: ns ∨
        ((',' :: host) ++ [',']) <:+: ns ∨ (',' :: host) <:+ ns)) ∧
    nodesMatch host none = true ∧
    nodesMatch "n1".data (some "n10".data) = false := by
  have hall : host.all (fun c => !(c == '%') && !(c == '_')) = true := hw
  have hw1 : noWild (host ++ [',']) = true := by
    unfold noWild
    rw [List.all_append, hall]
    decide
  have hw2 : noWild (',' :: host) = true := by
    unfold noWild
    rw [List.all_cons, hall]
    decide
  have hw3 : noWild ((',' :: host) ++ [',']) = true := by
    unfold noWild
    rw [List.all_append, List.all_cons, hall]
    decide
  refine ⟨?_, rfl, by decide⟩
  have m1 : likeMatch (host ++ ",%".data) ns = true ↔ (host ++ [',']) <+: ns := by
    rw [show host ++ ",%".data = (host ++ [',']) ++ ['%'] by simp]
    exact likeMatch_append_percent _ hw1 ns
  have m2 : likeMatch ("%,".data ++ (host ++ ",%".data)) ns = true ↔
      ((',' :: host) ++ [',']) <:+: ns := by
    rw [show "%,".data ++ (host ++ ",%".data) =
      '%' :: (((',' :: host) ++ [',']) ++ ['%']) by simp]
    exact likeMatch_percent_append_percent _ hw3 ns
  have m3 : likeMatch ("%,".data ++ host) ns = true ↔ (',' :: host) <:+ ns :=
    likeMatch_percent_append (',' :: host) hw2 ns
  simp only [nodesMatch, Bool.or_eq_true, beq_iff_eq, m1, m2, m3]
  tauto

/-- Witness for C4 amended: node `n1` against the list `n10,n1`; the
equivalence instantiates, and indeed `,n1` is a suffix. -/
theorem affinity_is_comma_membership_witness :
    (nodesMatch "n1".data (some "n10,n1".data) = true ↔
      ("n10,n1".data = "n1".data ∨ ("n1".data ++ [',']) <+: "n10,n1".data ∨
        ((',' :: "n1".data) ++ [',']) <:+: "n10,n1".data ∨
        (',' :: "n1".data) <:+ "n10,n1".data)) ∧
    nodesMatch "n1".data none = true ∧
    nodesMatch "n1".data (some "n10".data) = false :=
  affinity_is_comma_membership "n1".data "n10,n1".data rfl
